import Mathlib

/-!
Verification of the insightedu real-time identity matching and attendance
engine, shallowly embedded from the TypeScript source.

Numbers: JavaScript numbers are modelled as real numbers (`ℝ`).  The two
places where IEEE semantics matter are modelled explicitly:
* a thrown `Error` is modelled as `Except.error`;
* the one expression that can produce `NaN` (the cosine-similarity division
  when a zero norm makes the denominator `0`, so the division is `0 / 0`)
  is modelled as `Option ℝ` with `none` standing for `NaN`.  Every JS
  comparison `NaN > x` is `false`, which the embedding mirrors by treating a
  `none` similarity as never exceeding any bound.

React component state (`useState` + setters) is modelled as explicit state
passing: each setter is an immediate update of an explicit state record,
threaded sequentially through the per-frame loop.
-/

/-- Euclidean distance between two descriptors, from
`src/lib/faceApiHelper.ts` (`euclideanDistance`): throws when the lengths
differ, otherwise `sqrt` of the sum of squared coordinate differences. -/
noncomputable def euclideanDistance (desc1 desc2 : List ℝ) : Except String ℝ :=
  if desc1.length ≠ desc2.length then
    .error "Descriptors must have the same length"
  else
    .ok (Real.sqrt (((desc1.zip desc2).map (fun p => (p.1 - p.2) ^ 2)).sum))

/-- The loop accumulator `dotProduct` of `cosineSimilarity`: sum of pairwise
products over the common index range (the lengths are equal when it runs). -/
def dotProduct (a b : List ℝ) : ℝ :=
  ((a.zip b).map (fun p => p.1 * p.2)).sum

/-- The loop accumulators `norm1` / `norm2` of `cosineSimilarity`: sum of the
squares of the entries. -/
def normSq (a : List ℝ) : ℝ :=
  (a.map (fun x => x * x)).sum

/-- Cosine similarity from the transformers/tfjs helpers (`cosineSimilarity`
in both variants): throws on a length mismatch, otherwise returns
`dotProduct / (sqrt norm1 * sqrt norm2)`.  When either norm is zero the
source divides anyway; over the reals a zero norm forces `dotProduct = 0`,
so the JS result of that unguarded division is `0 / 0 = NaN`, modelled here
as `none`. -/
noncomputable def cosineSimilarity (embedding1 embedding2 : List ℝ) :
    Except String (Option ℝ) :=
  if embedding1.length ≠ embedding2.length then
    .error "Embeddings must have the same length"
  else if Real.sqrt (normSq embedding1) * Real.sqrt (normSq embedding2) = 0 then
    .ok none
  else
    .ok (some (dotProduct embedding1 embedding2 /
      (Real.sqrt (normSq embedding1) * Real.sqrt (normSq embedding2))))

theorem normSq_nonneg (a : List ℝ) : 0 ≤ normSq a := by
  induction a with
  | nil => simp [normSq]
  | cons x xs ih =>
    simp only [normSq, List.map_cons, List.sum_cons] at *
    nlinarith [mul_self_nonneg x]

theorem dotProduct_self (a : List ℝ) : dotProduct a a = normSq a := by
  induction a with
  | nil => simp [dotProduct, normSq]
  | cons x xs ih =>
    simp only [dotProduct, normSq, List.zip_cons_cons, List.map_cons,
      List.sum_cons] at *
    linarith

/-- One enrolled student of the cosine-similarity gallery
(`studentEmbeddings` entries in the transformers/tfjs helper). -/
structure StudentEmbedding where
  studentId : String
  studentName : String
  embedding : List ℝ

/-- The value returned by `findBestMatch`: student id, display name and the
similarity that was stored as `confidence`. -/
structure Match where
  studentId : String
  studentName : String
  confidence : ℝ

/-- The `for (const student of studentEmbeddings)` loop of `findBestMatch`,
with the mutable `bestMatch` / `highestSimilarity` variables made explicit
accumulator arguments.  A thrown length-mismatch error propagates out of the
loop; a `NaN` similarity (`none`) fails the `similarity > highestSimilarity`
comparison exactly as in JS. -/
noncomputable def findBestMatchGo (faceEmbedding : List ℝ)
    (bestMatch : Option Match) (highestSimilarity : ℝ) :
    List StudentEmbedding → Except String (Option Match)
  | [] => .ok bestMatch
  | student :: rest => do
    let similarity ← cosineSimilarity faceEmbedding student.embedding
    match similarity with
    | none => findBestMatchGo faceEmbedding bestMatch highestSimilarity rest
    | some v =>
      if highestSimilarity < v then
        findBestMatchGo faceEmbedding
          (some ⟨student.studentId, student.studentName, v⟩) v rest
      else
        findBestMatchGo faceEmbedding bestMatch highestSimilarity rest

/-- Cosine-similarity matcher `findBestMatch` from the transformers/tfjs
helpers: scans the gallery keeping the strictly highest similarity seen so
far, starting from `threshold` (so only similarities strictly above the
threshold can ever be kept). -/
noncomputable def findBestMatch (faceEmbedding : List ℝ)
    (studentEmbeddings : List StudentEmbedding) (threshold : ℝ) :
    Except String (Option Match) :=
  findBestMatchGo faceEmbedding none threshold studentEmbeddings

/-- One enrolled student of the descriptor gallery (`studentDescriptors`
entries in `src/lib/faceApiHelper.ts`). -/
structure StudentDescriptors where
  studentId : String
  studentName : String
  descriptors : List (List ℝ)

/-- A candidate of the defensive `findBestMatchFromDescriptor` variant:
per-student best (minimum) and average reference distance. -/
structure Candidate where
  studentId : String
  studentName : String
  distance : ℝ
  avgDistance : ℝ

/-- A candidate of the first `findBestMatchFromDescriptor` variant, which
keeps only the best (minimum) reference distance. -/
structure CandidateV1 where
  studentId : String
  studentName : String
  distance : ℝ

/-- The value returned by both `findBestMatchFromDescriptor` variants:
student id, display name and the `Math.round`ed confidence percentage. -/
structure DescriptorMatch where
  studentId : String
  studentName : String
  confidence : ℤ

/-- The inner loop of the candidate builders: the distances from the query
descriptor to each of a student's reference descriptors, in order; the first
length mismatch propagates as the thrown error. -/
noncomputable def refDistances (faceDescriptor : List ℝ) :
    List (List ℝ) → Except String (List ℝ)
  | [] => .ok []
  | r :: rs => do
    let d ← euclideanDistance faceDescriptor r
    let ds ← refDistances faceDescriptor rs
    .ok (d :: ds)

/-- The per-student minimum reference distance computed by the candidate
loops (`bestDist`, folded with `min` from `Infinity`): `none` when the
reference set is empty, an error when any reference mismatches the query. -/
noncomputable def bestRefDistance (faceDescriptor : List ℝ)
    (refs : List (List ℝ)) : Except String (Option ℝ) :=
  if refs.isEmpty then .ok none
  else do
    let dists ← refDistances faceDescriptor refs
    match dists with
    | [] => .ok none
    | d :: ds => .ok (some (ds.foldl min d))

/-- One iteration of the candidate-building loop of the defensive
`findBestMatchFromDescriptor`: skip students with no descriptors, otherwise
record the best (minimum) and average distance over all references. -/
noncomputable def candidateOf (faceDescriptor : List ℝ)
    (student : StudentDescriptors) : Except String (Option Candidate) :=
  if student.descriptors.isEmpty then .ok none
  else do
    let dists ← refDistances faceDescriptor student.descriptors
    match dists with
    | [] => .ok none
    | d :: ds =>
      .ok (some ⟨student.studentId, student.studentName, ds.foldl min d,
        (d :: ds).sum / (student.descriptors.length : ℝ)⟩)

/-- One iteration of the candidate-building loop of the first
`findBestMatchFromDescriptor` variant (best distance only). -/
noncomputable def candidateOfV1 (faceDescriptor : List ℝ)
    (student : StudentDescriptors) : Except String (Option CandidateV1) :=
  if student.descriptors.isEmpty then .ok none
  else do
    let dists ← refDistances faceDescriptor student.descriptors
    match dists with
    | [] => .ok none
    | d :: ds =>
      .ok (some ⟨student.studentId, student.studentName, ds.foldl min d⟩)

/-- The full candidate array of the defensive variant, in gallery order
(the loop pushes a candidate for each student with a nonempty reference
set). -/
noncomputable def studentCandidates (faceDescriptor : List ℝ) :
    List StudentDescriptors → Except String (List Candidate)
  | [] => .ok []
  | s :: gs => do
    let c ← candidateOf faceDescriptor s
    let cs ← studentCandidates faceDescriptor gs
    .ok (c.toList ++ cs)

/-- The full candidate array of the first variant, in gallery order. -/
noncomputable def studentCandidatesV1 (faceDescriptor : List ℝ) :
    List StudentDescriptors → Except String (List CandidateV1)
  | [] => .ok []
  | s :: gs => do
    let c ← candidateOfV1 faceDescriptor s
    let cs ← studentCandidatesV1 faceDescriptor gs
    .ok (c.toList ++ cs)

/-- Insert an element into an ascending-`key` list after every element of
smaller or equal key (the stable position). -/
noncomputable def sortedInsert {α : Type} (key : α → ℝ) (a : α) :
    List α → List α
  | [] => [a]
  | b :: l => if key b ≤ key a then b :: sortedInsert key a l else a :: b :: l

/-- Stable ascending sort by a real-valued key: the model of
`candidates.sort((a, b) => a.distance - b.distance)` (`Array.prototype.sort`
is stable per ES2019, and a stable sort by a key is unique). -/
noncomputable def sortByKey {α : Type} (key : α → ℝ) (l : List α) : List α :=
  l.foldl (fun acc a => sortedInsert key a acc) []

/-- Distance-to-confidence mapping of the defensive variant: clamp the best
distance to `[0, threshold]`, map linearly to a percentage, blend 70/30 with
an average-distance percentage over `[0, 1.5 * threshold]`, `Math.round`. -/
noncomputable def mkDescriptorResult (best : Candidate) (threshold : ℝ) :
    DescriptorMatch :=
  let clamped := min (max best.distance 0) threshold
  let confidence := max 0 ((1 - clamped / threshold) * 100)
  let avgConfidence := max 0 ((1 - best.avgDistance / (threshold * 1.5)) * 100)
  ⟨best.studentId, best.studentName,
    round (confidence * 0.7 + avgConfidence * 0.3)⟩

/-- Distance-to-confidence mapping of the first variant (no blending). -/
noncomputable def mkDescriptorResultV1 (best : CandidateV1) (threshold : ℝ) :
    DescriptorMatch :=
  let clamped := min (max best.distance 0) threshold
  let confidence := max 0 ((1 - clamped / threshold) * 100)
  ⟨best.studentId, best.studentName, round confidence⟩

/-- The defensive `findBestMatchFromDescriptor` of `src/lib/faceApiHelper.ts`
(default threshold 0.5): sort candidates ascending by best distance, then
reject when the best distance reaches the threshold, when the best/second
ratio exceeds 0.85, when (a second candidate existing) the best candidate's
average distance reaches `1.2 * threshold`, or when the best/third ratio
exceeds 0.7; otherwise return the best candidate with its confidence. -/
noncomputable def findBestMatchFromDescriptor (faceDescriptor : List ℝ)
    (studentDescriptors : List StudentDescriptors) (threshold : ℝ) :
    Except String (Option DescriptorMatch) := do
  let cands ← studentCandidates faceDescriptor studentDescriptors
  match sortByKey (fun c => c.distance) cands with
  | [] => .ok none
  | best :: rest =>
    if threshold ≤ best.distance then .ok none
    else
      match rest with
      | [] => .ok (some (mkDescriptorResult best threshold))
      | second :: rest2 =>
        if 0.85 < best.distance / second.distance then .ok none
        else if threshold * 1.2 ≤ best.avgDistance then .ok none
        else
          match rest2 with
          | [] => .ok (some (mkDescriptorResult best threshold))
          | third :: _ =>
            if 0.7 < best.distance / third.distance then .ok none
            else .ok (some (mkDescriptorResult best threshold))

/-- The first `findBestMatchFromDescriptor` variant (default threshold 0.6):
absolute cutoff plus a 0.9 best/second ratio test only. -/
noncomputable def findBestMatchFromDescriptorV1 (faceDescriptor : List ℝ)
    (studentDescriptors : List StudentDescriptors) (threshold : ℝ) :
    Except String (Option DescriptorMatch) := do
  let cands ← studentCandidatesV1 faceDescriptor studentDescriptors
  match sortByKey (fun c => c.distance) cands with
  | [] => .ok none
  | best :: rest =>
    if threshold ≤ best.distance then .ok none
    else
      match rest with
      | [] => .ok (some (mkDescriptorResultV1 best threshold))
      | second :: _ =>
        if 0.9 < best.distance / second.distance then .ok none
        else .ok (some (mkDescriptorResultV1 best threshold))

/-- One row inserted into the `attendance` table:
`(student_id, class_id, status)`. -/
structure AttendanceRow where
  student_id : String
  class_id : String
  status : String
deriving DecidableEq

/-- The session state mutated by the live pipeline of
`src/pages/TakeAttendance.tsx`: the `markedAttendance` set (modelled as a
duplicate-free insertion list) and the append-only sequence of persistence
inserts performed so far. -/
structure AttendanceState where
  marked : List String
  inserts : List AttendanceRow
deriving DecidableEq

/-- The `markAttendance` handler of `TakeAttendance.tsx` (lines 746-765):
returns unchanged when no class is selected, otherwise unconditionally
performs one `attendance` insert and, when the insert reports no error, adds
the student to `markedAttendance` (`new Set([...prev, studentId])`).  The
persistence outcome of the insert is the `dbError` argument.  Note there is
no check of `markedAttendance` inside this function. -/
def markAttendance (selectedClassId : Option String) (dbError : Bool)
    (st : AttendanceState) (studentId status : String) : AttendanceState :=
  match selectedClassId with
  | none => st
  | some c =>
    let st1 : AttendanceState :=
      { st with inserts := st.inserts ++ [⟨studentId, c, status⟩] }
    if dbError then st1
    else if studentId ∈ st1.marked then st1
    else { st1 with marked := st1.marked ++ [studentId] }

/-- The guarded call site in the `detect` loop (lines 662-664):
`if (recognizedStudent && !markedAttendance.has(id)) await markAttendance(id,
'present')`. -/
def guardedMarkAttendance (selectedClassId : Option String) (dbError : Bool)
    (st : AttendanceState) (studentId : String) : AttendanceState :=
  if studentId ∈ st.marked then st
  else markAttendance selectedClassId dbError st studentId "present"

/-- Processing of one detected face box inside the `detect` loop of the live
pipeline: when the gallery is nonempty, run `findBestMatch` at threshold 0.5
on the face embedding (a thrown error is swallowed by the per-frame
`catch`), and on a recognized student run the guarded `markAttendance`. -/
noncomputable def processFace (gallery : List StudentEmbedding)
    (selectedClassId : Option String) (dbError : Bool)
    (st : AttendanceState) (faceEmbedding : List ℝ) : AttendanceState :=
  if gallery.isEmpty then st
  else
    match findBestMatch faceEmbedding gallery 0.5 with
    | .error _ => st
    | .ok none => st
    | .ok (some m) => guardedMarkAttendance selectedClassId dbError st m.studentId

/-- One `detect` evaluation cycle of the live pipeline: fold the per-face
processing over the frame's detected face embeddings. -/
noncomputable def detectCycle (gallery : List StudentEmbedding)
    (selectedClassId : Option String) (dbError : Bool)
    (st : AttendanceState) (faces : List (List ℝ)) : AttendanceState :=
  faces.foldl (processFace gallery selectedClassId dbError) st

/-- A whole session run: successive `detect` cycles, one per frame. -/
noncomputable def runCycles (gallery : List StudentEmbedding)
    (selectedClassId : Option String) (dbError : Bool)
    (st : AttendanceState) (frames : List (List (List ℝ))) : AttendanceState :=
  frames.foldl (detectCycle gallery selectedClassId dbError) st

theorem sortedInsert_perm {α : Type} (key : α → ℝ) (a : α) (l : List α) :
    (sortedInsert key a l).Perm (a :: l) := by
  induction l with
  | nil => simp [sortedInsert]
  | cons b l ih =>
    unfold sortedInsert
    by_cases hb : key b ≤ key a
    · simp only [hb, if_pos]
      exact (ih.cons b).trans (List.Perm.swap a b l)
    · simp only [hb, if_neg, not_false_iff]
      exact List.Perm.refl _

theorem sortByKey_foldl_perm {α : Type} (key : α → ℝ) (l acc : List α) :
    (List.foldl (fun acc a => sortedInsert key a acc) acc l).Perm (acc ++ l) := by
  induction l generalizing acc with
  | nil => simp
  | cons a l ih =>
    simp only [List.foldl_cons]
    refine (ih (sortedInsert key a acc)).trans ?_
    refine (((sortedInsert_perm key a acc).append_right l).trans ?_)
    exact List.perm_middle.symm

theorem sortByKey_perm {α : Type} (key : α → ℝ) (l : List α) :
    (sortByKey key l).Perm l := by
  simpa using sortByKey_foldl_perm key l []

theorem mem_sortByKey {α : Type} (key : α → ℝ) (l : List α) (a : α) :
    a ∈ sortByKey key l ↔ a ∈ l :=
  (sortByKey_perm key l).mem_iff

theorem candidateOf_bestRefDistance (q : List ℝ) (s : StudentDescriptors)
    (c : Candidate) (h : candidateOf q s = .ok (some c)) :
    bestRefDistance q s.descriptors = .ok (some c.distance) := by
  unfold candidateOf at h
  unfold bestRefDistance
  by_cases he : s.descriptors.isEmpty
  · simp [he] at h
  · simp only [he, if_false, Bool.false_eq_true, ite_false] at h ⊢
    cases hd : refDistances q s.descriptors with
    | error e => rw [hd] at h; simp [Bind.bind, Except.bind] at h
    | ok dists =>
      rw [hd] at h
      cases dists with
      | nil => simp [Bind.bind, Except.bind] at h
      | cons d ds =>
        simp [Bind.bind, Except.bind] at h ⊢
        rw [← h]

theorem findBestMatchFromDescriptor_some_inv (q : List ℝ)
    (g : List StudentDescriptors) (threshold : ℝ) (r : DescriptorMatch)
    (h : findBestMatchFromDescriptor q g threshold = .ok (some r)) :
    ∃ cs best rest, studentCandidates q g = .ok cs ∧
      sortByKey (fun c => c.distance) cs = best :: rest ∧
      r = mkDescriptorResult best threshold ∧ best.distance < threshold := by
  unfold findBestMatchFromDescriptor at h
  cases hc : studentCandidates q g with
  | error e => rw [hc] at h; simp [Bind.bind, Except.bind] at h
  | ok cs =>
    rw [hc] at h
    simp only [Bind.bind, Except.bind] at h
    cases hs : sortByKey (fun c => c.distance) cs with
    | nil => rw [hs] at h; simp at h
    | cons best rest =>
      rw [hs] at h
      refine ⟨cs, best, rest, rfl, hs, ?_⟩
      by_cases h1 : threshold ≤ best.distance
      · simp [h1] at h
      · refine And.intro ?_ (lt_of_not_le h1)
        cases rest with
        | nil =>
          simp only [h1, if_false, ite_false] at h
          exact Option.some.inj (Except.ok.inj h).symm
        | cons second rest2 =>
          by_cases h2 : (0.85 : ℝ) < best.distance / second.distance
          · simp [h1, h2] at h
          · by_cases h3 : threshold * 1.2 ≤ best.avgDistance
            · simp [h1, h2, h3] at h
            · cases rest2 with
              | nil =>
                simp only [h1, h2, h3, if_false, ite_false] at h
                exact Option.some.inj (Except.ok.inj h).symm
              | cons third rest3 =>
                by_cases h4 : (0.7 : ℝ) < best.distance / third.distance
                · simp [h1, h2, h3, h4] at h
                · simp only [h1, h2, h3, h4, if_false, ite_false] at h
                  exact Option.some.inj (Except.ok.inj h).symm

theorem findBestMatchFromDescriptorV1_some_inv (q : List ℝ)
    (g : List StudentDescriptors) (threshold : ℝ) (r : DescriptorMatch)
    (h : findBestMatchFromDescriptorV1 q g threshold = .ok (some r)) :
    ∃ cs best rest, studentCandidatesV1 q g = .ok cs ∧
      sortByKey (fun c => c.distance) cs = best :: rest ∧
      r = mkDescriptorResultV1 best threshold ∧ best.distance < threshold := by
  unfold findBestMatchFromDescriptorV1 at h
  cases hc : studentCandidatesV1 q g with
  | error e => rw [hc] at h; simp [Bind.bind, Except.bind] at h
  | ok cs =>
    rw [hc] at h
    simp only [Bind.bind, Except.bind] at h
    cases hs : sortByKey (fun c => c.distance) cs with
    | nil => rw [hs] at h; simp at h
    | cons best rest =>
      rw [hs] at h
      refine ⟨cs, best, rest, rfl, hs, ?_⟩
      by_cases h1 : threshold ≤ best.distance
      · simp [h1] at h
      · refine And.intro ?_ (lt_of_not_le h1)
        cases rest with
        | nil =>
          simp only [h1, if_false, ite_false] at h
          exact Option.some.inj (Except.ok.inj h).symm
        | cons second rest2 =>
          by_cases h2 : (0.9 : ℝ) < best.distance / second.distance
          · simp [h1, h2] at h
          · simp only [h1, h2, if_false, ite_false] at h
            exact Option.some.inj (Except.ok.inj h).symm

theorem candidateOf_fields (q : List ℝ) (s : StudentDescriptors)
    (c : Candidate) (h : candidateOf q s = .ok (some c)) :
    c.studentId = s.studentId ∧ c.studentName = s.studentName := by
  unfold candidateOf at h
  by_cases he : s.descriptors.isEmpty
  · simp [he] at h
  · simp only [he, if_false, Bool.false_eq_true, ite_false] at h
    cases hd : refDistances q s.descriptors with
    | error e => rw [hd] at h; simp [Bind.bind, Except.bind] at h
    | ok dists =>
      rw [hd] at h
      cases dists with
      | nil => simp [Bind.bind, Except.bind] at h
      | cons d ds =>
        simp [Bind.bind, Except.bind] at h
        rw [← h]
        exact ⟨rfl, rfl⟩

theorem candidateOfV1_fields (q : List ℝ) (s : StudentDescriptors)
    (c : CandidateV1) (h : candidateOfV1 q s = .ok (some c)) :
    c.studentId = s.studentId ∧ c.studentName = s.studentName := by
  unfold candidateOfV1 at h
  by_cases he : s.descriptors.isEmpty
  · simp [he] at h
  · simp only [he, if_false, Bool.false_eq_true, ite_false] at h
    cases hd : refDistances q s.descriptors with
    | error e => rw [hd] at h; simp [Bind.bind, Except.bind] at h
    | ok dists =>
      rw [hd] at h
      cases dists with
      | nil => simp [Bind.bind, Except.bind] at h
      | cons d ds =>
        simp [Bind.bind, Except.bind] at h
        rw [← h]
        exact ⟨rfl, rfl⟩

theorem studentCandidates_mem (q : List ℝ) (g : List StudentDescriptors)
    (cs : List Candidate) (c : Candidate)
    (h : studentCandidates q g = .ok cs) (hc : c ∈ cs) :
    ∃ s ∈ g, candidateOf q s = .ok (some c) := by
  induction g generalizing cs with
  | nil =>
    unfold studentCandidates at h
    cases h
    simp at hc
  | cons s gs ih =>
    unfold studentCandidates at h
    cases ho : candidateOf q s with
    | error e => rw [ho] at h; simp [Bind.bind, Except.bind] at h
    | ok o =>
      rw [ho] at h
      cases hrest : studentCandidates q gs with
      | error e => rw [hrest] at h; simp [Bind.bind, Except.bind] at h
      | ok cs1 =>
        rw [hrest] at h
        simp [Bind.bind, Except.bind] at h
        rw [← h] at hc
        rcases List.mem_append.mp hc with hin | hin
        · refine ⟨s, List.mem_cons_self s gs, ?_⟩
          rw [ho]
          cases o with
          | none => simp at hin
          | some c0 => simp at hin; rw [hin]
        · obtain ⟨t, ht, hcand⟩ := ih cs1 hrest hin
          exact ⟨t, List.mem_cons_of_mem s ht, hcand⟩

theorem studentCandidatesV1_mem (q : List ℝ) (g : List StudentDescriptors)
    (cs : List CandidateV1) (c : CandidateV1)
    (h : studentCandidatesV1 q g = .ok cs) (hc : c ∈ cs) :
    ∃ s ∈ g, candidateOfV1 q s = .ok (some c) := by
  induction g generalizing cs with
  | nil =>
    unfold studentCandidatesV1 at h
    cases h
    simp at hc
  | cons s gs ih =>
    unfold studentCandidatesV1 at h
    cases ho : candidateOfV1 q s with
    | error e => rw [ho] at h; simp [Bind.bind, Except.bind] at h
    | ok o =>
      rw [ho] at h
      cases hrest : studentCandidatesV1 q gs with
      | error e => rw [hrest] at h; simp [Bind.bind, Except.bind] at h
      | ok cs1 =>
        rw [hrest] at h
        simp [Bind.bind, Except.bind] at h
        rw [← h] at hc
        rcases List.mem_append.mp hc with hin | hin
        · refine ⟨s, List.mem_cons_self s gs, ?_⟩
          rw [ho]
          cases o with
          | none => simp at hin
          | some c0 => simp at hin; rw [hin]
        · obtain ⟨t, ht, hcand⟩ := ih cs1 hrest hin
          exact ⟨t, List.mem_cons_of_mem s ht, hcand⟩

theorem candidateOfV1_bestRefDistance (q : List ℝ) (s : StudentDescriptors)
    (c : CandidateV1) (h : candidateOfV1 q s = .ok (some c)) :
    bestRefDistance q s.descriptors = .ok (some c.distance) := by
  unfold candidateOfV1 at h
  unfold bestRefDistance
  by_cases he : s.descriptors.isEmpty
  · simp [he] at h
  · simp only [he, if_false, Bool.false_eq_true, ite_false] at h ⊢
    cases hd : refDistances q s.descriptors with
    | error e => rw [hd] at h; simp [Bind.bind, Except.bind] at h
    | ok dists =>
      rw [hd] at h
      cases dists with
      | nil => simp [Bind.bind, Except.bind] at h
      | cons d ds =>
        simp [Bind.bind, Except.bind] at h ⊢
        rw [← h]

/-- C3: for every query embedding, every gallery, and every threshold,
neither `findBestMatchFromDescriptor` variant ever returns a candidate whose
best (minimum over its reference descriptors) distance to the query is
greater than or equal to the threshold: any returned match names a gallery
student whose best reference distance is strictly below the threshold. -/
theorem matcher_absolute_cutoff (q : List ℝ) (g : List StudentDescriptors)
    (threshold : ℝ) :
    (∀ r, findBestMatchFromDescriptor q g threshold = .ok (some r) →
      ∃ s ∈ g, s.studentId = r.studentId ∧ s.studentName = r.studentName ∧
        ∃ d, bestRefDistance q s.descriptors = .ok (some d) ∧ d < threshold) ∧
    (∀ r, findBestMatchFromDescriptorV1 q g threshold = .ok (some r) →
      ∃ s ∈ g, s.studentId = r.studentId ∧ s.studentName = r.studentName ∧
        ∃ d, bestRefDistance q s.descriptors = .ok (some d) ∧ d < threshold) := by
  constructor
  · intro r h
    obtain ⟨cs, best, rest, hc, hs, hr, hlt⟩ :=
      findBestMatchFromDescriptor_some_inv q g threshold r h
    have hmem : best ∈ cs := by
      rw [← mem_sortByKey (fun c => c.distance) cs, hs]
      exact List.mem_cons_self _ _
    obtain ⟨s, hsg, hcand⟩ := studentCandidates_mem q g cs best hc hmem
    have hf := candidateOf_fields q s best hcand
    have hb := candidateOf_bestRefDistance q s best hcand
    refine ⟨s, hsg, ?_, ?_, best.distance, hb, hlt⟩
    · rw [hr]
      simp only [mkDescriptorResult]
      exact hf.1.symm
    · rw [hr]
      simp only [mkDescriptorResult]
      exact hf.2.symm
  · intro r h
    obtain ⟨cs, best, rest, hc, hs, hr, hlt⟩ :=
      findBestMatchFromDescriptorV1_some_inv q g threshold r h
    have hmem : best ∈ cs := by
      rw [← mem_sortByKey (fun c => c.distance) cs, hs]
      exact List.mem_cons_self _ _
    obtain ⟨s, hsg, hcand⟩ := studentCandidatesV1_mem q g cs best hc hmem
    have hf := candidateOfV1_fields q s best hcand
    have hb := candidateOfV1_bestRefDistance q s best hcand
    refine ⟨s, hsg, ?_, ?_, best.distance, hb, hlt⟩
    · rw [hr]
      simp only [mkDescriptorResultV1]
      exact hf.1.symm
    · rw [hr]
      simp only [mkDescriptorResultV1]
      exact hf.2.symm

/-- Witness for the C3 theorem: a one-student gallery at best distance 0
yields a match under both variants, and the theorem then locates the student
with a best reference distance strictly below the threshold. -/
theorem matcher_absolute_cutoff_witness :
    (findBestMatchFromDescriptor [(0 : ℝ)] [⟨"alice", "Alice", [[0]]⟩] 0.5 =
      .ok (some ⟨"alice", "Alice", 100⟩)) ∧
    (findBestMatchFromDescriptorV1 [(0 : ℝ)] [⟨"alice", "Alice", [[0]]⟩] 0.6 =
      .ok (some ⟨"alice", "Alice", 100⟩)) ∧
    (∃ s ∈ [(⟨"alice", "Alice", [[0]]⟩ : StudentDescriptors)],
      s.studentId = "alice" ∧ s.studentName = "Alice" ∧
      ∃ d, bestRefDistance [(0 : ℝ)] s.descriptors = .ok (some d) ∧ d < 0.5) ∧
    (∃ s ∈ [(⟨"alice", "Alice", [[0]]⟩ : StudentDescriptors)],
      s.studentId = "alice" ∧ s.studentName = "Alice" ∧
      ∃ d, bestRefDistance [(0 : ℝ)] s.descriptors = .ok (some d) ∧ d < 0.6) := by
  have h1 : findBestMatchFromDescriptor [(0 : ℝ)]
      [⟨"alice", "Alice", [[0]]⟩] 0.5 = .ok (some ⟨"alice", "Alice", 100⟩) := by
    norm_num [findBestMatchFromDescriptor, studentCandidates, candidateOf,
      refDistances, euclideanDistance, sortByKey, sortedInsert,
      mkDescriptorResult, Bind.bind, Except.bind, round_eq]
  have h2 : findBestMatchFromDescriptorV1 [(0 : ℝ)]
      [⟨"alice", "Alice", [[0]]⟩] 0.6 = .ok (some ⟨"alice", "Alice", 100⟩) := by
    norm_num [findBestMatchFromDescriptorV1, studentCandidatesV1, candidateOfV1,
      refDistances, euclideanDistance, sortByKey, sortedInsert,
      mkDescriptorResultV1, Bind.bind, Except.bind, round_eq]
  exact ⟨h1, h2,
    (matcher_absolute_cutoff [(0 : ℝ)] [⟨"alice", "Alice", [[0]]⟩] 0.5).1 _ h1,
    (matcher_absolute_cutoff [(0 : ℝ)] [⟨"alice", "Alice", [[0]]⟩] 0.6).2 _ h2⟩

/-- C4: whenever the sorted candidate list has at least two entries and the
ratio of the best candidate's best distance to the second-best candidate's
best distance exceeds 0.85, the defensive matcher returns no-match,
whatever the threshold (in particular even when the best distance is
strictly below it). -/
theorem matcher_ratio_test_rejects (q : List ℝ) (g : List StudentDescriptors)
    (threshold : ℝ) (cs : List Candidate) (best second : Candidate)
    (rest : List Candidate)
    (hc : studentCandidates q g = .ok cs)
    (hs : sortByKey (fun c => c.distance) cs = best :: second :: rest)
    (hratio : (0.85 : ℝ) < best.distance / second.distance) :
    findBestMatchFromDescriptor q g threshold = .ok none := by
  unfold findBestMatchFromDescriptor
  rw [hc]
  simp only [Bind.bind, Except.bind]
  rw [hs]
  by_cases h1 : threshold ≤ best.distance
  · simp [h1]
  · simp [h1, hratio]

/-- C5: whenever the sorted candidate list has at least three entries and
the ratio of the best candidate's best distance to the third-best
candidate's best distance exceeds 0.7, the defensive matcher returns
no-match. -/
theorem matcher_third_candidate_rejects (q : List ℝ)
    (g : List StudentDescriptors) (threshold : ℝ) (cs : List Candidate)
    (best second third : Candidate) (rest : List Candidate)
    (hc : studentCandidates q g = .ok cs)
    (hs : sortByKey (fun c => c.distance) cs = best :: second :: third :: rest)
    (hratio : (0.7 : ℝ) < best.distance / third.distance) :
    findBestMatchFromDescriptor q g threshold = .ok none := by
  unfold findBestMatchFromDescriptor
  rw [hc]
  simp only [Bind.bind, Except.bind]
  rw [hs]
  by_cases h1 : threshold ≤ best.distance
  · simp [h1]
  · by_cases h2 : (0.85 : ℝ) < best.distance / second.distance
    · simp [h1, h2]
    · by_cases h3 : threshold * 1.2 ≤ best.avgDistance
      · simp [h1, h2, h3]
      · simp [h1, h2, h3, hratio]

/-- C9: whenever a second candidate exists, the defensive matcher also
rejects when the best candidate's average reference distance is at least
`1.2 * threshold`, regardless of the absolute-cutoff, 0.85-ratio and
0.7-third-candidate tests. -/
theorem matcher_average_distance_rejects (q : List ℝ)
    (g : List StudentDescriptors) (threshold : ℝ) (cs : List Candidate)
    (best second : Candidate) (rest : List Candidate)
    (hc : studentCandidates q g = .ok cs)
    (hs : sortByKey (fun c => c.distance) cs = best :: second :: rest)
    (havg : threshold * 1.2 ≤ best.avgDistance) :
    findBestMatchFromDescriptor q g threshold = .ok none := by
  unfold findBestMatchFromDescriptor
  rw [hc]
  simp only [Bind.bind, Except.bind]
  rw [hs]
  by_cases h1 : threshold ≤ best.distance
  · simp [h1]
  · by_cases h2 : (0.85 : ℝ) < best.distance / second.distance
    · simp [h1, h2]
    · simp [h1, h2, havg]

/-- Witness for the C4 theorem: two students at best distances 1 and 1
(ratio 1 > 0.85) are rejected even though the threshold 1.5 exceeds the
best distance. -/
theorem matcher_ratio_test_rejects_witness :
    (studentCandidates [(0 : ℝ)] [⟨"alice", "Alice", [[1]]⟩,
        ⟨"bob", "Bob", [[1]]⟩] =
      .ok [⟨"alice", "Alice", 1, 1⟩, ⟨"bob", "Bob", 1, 1⟩]) ∧
    (sortByKey (fun c : Candidate => c.distance)
        [⟨"alice", "Alice", 1, 1⟩, ⟨"bob", "Bob", 1, 1⟩] =
      [⟨"alice", "Alice", 1, 1⟩, ⟨"bob", "Bob", 1, 1⟩]) ∧
    ((0.85 : ℝ) < 1 / 1) ∧
    findBestMatchFromDescriptor [(0 : ℝ)] [⟨"alice", "Alice", [[1]]⟩,
      ⟨"bob", "Bob", [[1]]⟩] 1.5 = .ok none := by
  have hc : studentCandidates [(0 : ℝ)] [⟨"alice", "Alice", [[1]]⟩,
      ⟨"bob", "Bob", [[1]]⟩] =
      .ok [⟨"alice", "Alice", 1, 1⟩, ⟨"bob", "Bob", 1, 1⟩] := by
    norm_num [studentCandidates, candidateOf, refDistances, euclideanDistance,
      Bind.bind, Except.bind, Real.sqrt_one]
  have hs : sortByKey (fun c => c.distance)
      [(⟨"alice", "Alice", 1, 1⟩ : Candidate), ⟨"bob", "Bob", 1, 1⟩] =
      [⟨"alice", "Alice", 1, 1⟩, ⟨"bob", "Bob", 1, 1⟩] := by
    norm_num [sortByKey, sortedInsert]
  exact ⟨hc, hs, by norm_num,
    matcher_ratio_test_rejects _ _ 1.5 _ _ _ _ hc hs (by norm_num)⟩

/-- Witness for the C5 theorem: three students all at best distance 1
(best/third ratio 1 > 0.7) are rejected at threshold 1.5. -/
theorem matcher_third_candidate_rejects_witness :
    (studentCandidates [(0 : ℝ)] [⟨"alice", "Alice", [[1]]⟩,
        ⟨"bob", "Bob", [[1]]⟩, ⟨"cara", "Cara", [[1]]⟩] =
      .ok [⟨"alice", "Alice", 1, 1⟩, ⟨"bob", "Bob", 1, 1⟩,
        ⟨"cara", "Cara", 1, 1⟩]) ∧
    (sortByKey (fun c : Candidate => c.distance) [⟨"alice", "Alice", 1, 1⟩,
        ⟨"bob", "Bob", 1, 1⟩, ⟨"cara", "Cara", 1, 1⟩] =
      [⟨"alice", "Alice", 1, 1⟩, ⟨"bob", "Bob", 1, 1⟩,
        ⟨"cara", "Cara", 1, 1⟩]) ∧
    ((0.7 : ℝ) < 1 / 1) ∧
    findBestMatchFromDescriptor [(0 : ℝ)] [⟨"alice", "Alice", [[1]]⟩,
      ⟨"bob", "Bob", [[1]]⟩, ⟨"cara", "Cara", [[1]]⟩] 1.5 = .ok none := by
  have hc : studentCandidates [(0 : ℝ)] [⟨"alice", "Alice", [[1]]⟩,
      ⟨"bob", "Bob", [[1]]⟩, ⟨"cara", "Cara", [[1]]⟩] =
      .ok [⟨"alice", "Alice", 1, 1⟩, ⟨"bob", "Bob", 1, 1⟩,
        ⟨"cara", "Cara", 1, 1⟩] := by
    norm_num [studentCandidates, candidateOf, refDistances, euclideanDistance,
      Bind.bind, Except.bind, Real.sqrt_one]
  have hs : sortByKey (fun c => c.distance) [(⟨"alice", "Alice", 1, 1⟩ :
      Candidate), ⟨"bob", "Bob", 1, 1⟩, ⟨"cara", "Cara", 1, 1⟩] =
      [⟨"alice", "Alice", 1, 1⟩, ⟨"bob", "Bob", 1, 1⟩,
        ⟨"cara", "Cara", 1, 1⟩] := by
    norm_num [sortByKey, sortedInsert]
  exact ⟨hc, hs, by norm_num,
    matcher_third_candidate_rejects _ _ 1.5 _ _ _ _ _ hc hs (by norm_num)⟩

/-- Witness for the C9 theorem: "alice" has reference distances 0 and 1
(best 0, average 0.5); at threshold 0.25 the absolute cutoff passes
(0 < 0.25), the ratio test passes (0/1 ≤ 0.85), there is no third
candidate, yet the average-distance guard (0.25 * 1.2 = 0.3 ≤ 0.5) rejects
the match. -/
theorem matcher_average_distance_rejects_witness :
    (studentCandidates [(0 : ℝ)] [⟨"alice", "Alice", [[0], [1]]⟩,
        ⟨"bob", "Bob", [[1]]⟩] =
      .ok [⟨"alice", "Alice", 0, 0.5⟩, ⟨"bob", "Bob", 1, 1⟩]) ∧
    (sortByKey (fun c : Candidate => c.distance)
        [⟨"alice", "Alice", 0, 0.5⟩, ⟨"bob", "Bob", 1, 1⟩] =
      [⟨"alice", "Alice", 0, 0.5⟩, ⟨"bob", "Bob", 1, 1⟩]) ∧
    ((0.25 : ℝ) * 1.2 ≤ 0.5) ∧
    findBestMatchFromDescriptor [(0 : ℝ)] [⟨"alice", "Alice", [[0], [1]]⟩,
      ⟨"bob", "Bob", [[1]]⟩] 0.25 = .ok none := by
  have hc : studentCandidates [(0 : ℝ)] [⟨"alice", "Alice", [[0], [1]]⟩,
      ⟨"bob", "Bob", [[1]]⟩] =
      .ok [⟨"alice", "Alice", 0, 0.5⟩, ⟨"bob", "Bob", 1, 1⟩] := by
    norm_num [studentCandidates, candidateOf, refDistances, euclideanDistance,
      Bind.bind, Except.bind, Real.sqrt_one]
  have hs : sortByKey (fun c => c.distance)
      [(⟨"alice", "Alice", 0, 0.5⟩ : Candidate), ⟨"bob", "Bob", 1, 1⟩] =
      [⟨"alice", "Alice", 0, 0.5⟩, ⟨"bob", "Bob", 1, 1⟩] := by
    norm_num [sortByKey, sortedInsert]
  exact ⟨hc, hs, by norm_num,
    matcher_average_distance_rejects _ _ 0.25 _ _ _ _ hc hs (by norm_num)⟩

/-- C7: for every pair of vectors of differing lengths, both the distance
and the similarity operations throw their length-mismatch error (modelled as
`Except.error`), and never return a numeric result. -/
theorem mismatched_lengths_error (a b : List ℝ) (h : a.length ≠ b.length) :
    euclideanDistance a b = .error "Descriptors must have the same length" ∧
    cosineSimilarity a b = .error "Embeddings must have the same length" := by
  constructor
  · simp [euclideanDistance, h]
  · simp [cosineSimilarity, h]

/-- Witness for the C7 theorem at lengths 1 and 0. -/
theorem mismatched_lengths_error_witness :
    ([(1 : ℝ)].length ≠ ([] : List ℝ).length) ∧
    euclideanDistance [(1 : ℝ)] [] =
      .error "Descriptors must have the same length" ∧
    cosineSimilarity [(1 : ℝ)] [] =
      .error "Embeddings must have the same length" := by
  have h : ([(1 : ℝ)].length ≠ ([] : List ℝ).length) := by simp
  exact ⟨h, (mismatched_lengths_error _ _ h).1, (mismatched_lengths_error _ _ h).2⟩

/-- C6 counterexample: at the concrete equal-length pair `[1]`, `[0]` the
second input has zero norm, and `cosineSimilarity` returns `.ok none` — the
NaN of the unguarded `0 / 0` division — rather than any (maximally
dissimilar) similarity value. -/
theorem cosineSimilarity_zero_norm_is_nan :
    cosineSimilarity [(1 : ℝ)] [0] = .ok none := by
  norm_num [cosineSimilarity, normSq]

/-- C6 amended: the division in `cosineSimilarity` is unguarded; for every
equal-length pair in which either input has zero norm, the zero denominator
makes the result the JS NaN (modelled `none`) — the function does not raise,
but it also does not return a similarity value. -/
theorem cosineSimilarity_zero_norm_unguarded (e1 e2 : List ℝ)
    (hlen : e1.length = e2.length) (h : normSq e1 = 0 ∨ normSq e2 = 0) :
    cosineSimilarity e1 e2 = .ok none := by
  unfold cosineSimilarity
  rw [if_neg (by simp [hlen])]
  rcases h with h | h <;> rw [h, Real.sqrt_zero]
  · rw [if_pos (zero_mul _)]
  · rw [if_pos (mul_zero _)]

/-- Witness for the amended C6 theorem at the pair `[1]`, `[0]`. -/
theorem cosineSimilarity_zero_norm_unguarded_witness :
    ([(1 : ℝ)].length = [(0 : ℝ)].length) ∧ normSq [(0 : ℝ)] = 0 ∧
    cosineSimilarity [(1 : ℝ)] [0] = .ok none := by
  have h1 : ([(1 : ℝ)].length = [(0 : ℝ)].length) := by simp
  have h2 : normSq [(0 : ℝ)] = 0 := by norm_num [normSq]
  exact ⟨h1, h2, cosineSimilarity_zero_norm_unguarded _ _ h1 (Or.inr h2)⟩

/-- C8 counterexample: for the all-zeros embedding `[0]`, `similarity(a, a)`
is not 1 (it is the NaN marker `none`, from the unguarded `0 / 0`). -/
theorem similarity_self_zero_vector_not_one :
    cosineSimilarity [(0 : ℝ)] [0] ≠ .ok (some 1) := by
  have h : cosineSimilarity [(0 : ℝ)] [0] = .ok none := by
    norm_num [cosineSimilarity, normSq]
  rw [h]
  simp

/-- C8 amended: for every embedding `a`, `distance(a, a)` is 0, and
`similarity(a, a)` is 1 whenever `a` has nonzero norm; for a zero-norm `a`
(the all-zeros embedding) `similarity(a, a)` is NaN (`none`) instead. -/
theorem metrics_self (a : List ℝ) :
    euclideanDistance a a = .ok 0 ∧
    (normSq a ≠ 0 → cosineSimilarity a a = .ok (some 1)) ∧
    (normSq a = 0 → cosineSimilarity a a = .ok none) := by
  refine ⟨?_, ?_, ?_⟩
  · have hsum : (((a.zip a).map (fun p => (p.1 - p.2) ^ 2)).sum : ℝ) = 0 := by
      induction a with
      | nil => simp
      | cons x xs ih => simp [ih]
    simp [euclideanDistance, hsum]
  · intro hn
    unfold cosineSimilarity
    rw [if_neg (by simp)]
    have hself : Real.sqrt (normSq a) * Real.sqrt (normSq a) = normSq a :=
      Real.mul_self_sqrt (normSq_nonneg a)
    rw [if_neg (by rw [hself]; exact hn), hself, dotProduct_self,
      div_self hn]
  · intro hn
    unfold cosineSimilarity
    rw [if_neg (by simp), hn, Real.sqrt_zero, if_pos (zero_mul _)]

/-- Witness for the amended C8 theorem at `a = [1]`. -/
theorem metrics_self_witness :
    euclideanDistance [(1 : ℝ)] [1] = .ok 0 ∧ normSq [(1 : ℝ)] ≠ 0 ∧
    cosineSimilarity [(1 : ℝ)] [1] = .ok (some 1) := by
  have hn : normSq [(1 : ℝ)] ≠ 0 := by norm_num [normSq]
  exact ⟨(metrics_self [(1 : ℝ)]).1, hn, (metrics_self [(1 : ℝ)]).2.1 hn⟩

theorem cosineSimilarity_ok (e1 e2 : List ℝ) (h : e2.length = e1.length) :
    ∃ o, cosineSimilarity e1 e2 = .ok o := by
  unfold cosineSimilarity
  rw [if_neg (by simp [h])]
  split
  · exact ⟨none, rfl⟩
  · exact ⟨_, rfl⟩

theorem findBestMatchGo_spec (face : List ℝ) (l : List StudentEmbedding) :
    ∀ (b : Option Match) (hi : ℝ),
    (∀ s ∈ l, s.embedding.length = face.length) →
    ∃ r, findBestMatchGo face b hi l = .ok r ∧
      ((r = b ∧ ∀ s ∈ l, ∀ v,
          cosineSimilarity face s.embedding = .ok (some v) → v ≤ hi) ∨
       (∃ l1 s l2 v, l = l1 ++ s :: l2 ∧
          cosineSimilarity face s.embedding = .ok (some v) ∧ hi < v ∧
          r = some ⟨s.studentId, s.studentName, v⟩ ∧
          (∀ t ∈ l1, ∀ w,
            cosineSimilarity face t.embedding = .ok (some w) → w < v) ∧
          (∀ t ∈ l2, ∀ w,
            cosineSimilarity face t.embedding = .ok (some w) → w ≤ v))) := by
  induction l with
  | nil =>
    intro b hi _
    exact ⟨b, rfl, Or.inl ⟨rfl, by simp⟩⟩
  | cons student rest ih =>
    intro b hi hlen
    have hslen : student.embedding.length = face.length :=
      hlen student (List.mem_cons_self _ _)
    obtain ⟨o, ho⟩ := cosineSimilarity_ok face student.embedding hslen
    have hrest : ∀ s ∈ rest, s.embedding.length = face.length :=
      fun s hs => hlen s (List.mem_cons_of_mem _ hs)
    cases o with
    | none =>
      have hstep : findBestMatchGo face b hi (student :: rest) =
          findBestMatchGo face b hi rest := by
        simp only [findBestMatchGo, ho, Bind.bind, Except.bind]
      obtain ⟨r, hr, hcase⟩ := ih b hi hrest
      refine ⟨r, by rw [hstep]; exact hr, ?_⟩
      rcases hcase with ⟨hrb, hall⟩ |
        ⟨l1, s, l2, v, hsplit, hsim, hv, hrr, hpre, hpost⟩
      · refine Or.inl ⟨hrb, ?_⟩
        intro t ht w hw
        rcases List.mem_cons.mp ht with rfl | ht
        · rw [ho] at hw
          exact absurd (Except.ok.inj hw) (by simp)
        · exact hall t ht w hw
      · refine Or.inr ⟨student :: l1, s, l2, v, by rw [hsplit]; rfl,
          hsim, hv, hrr, ?_, hpost⟩
        intro t ht w hw
        rcases List.mem_cons.mp ht with rfl | ht
        · rw [ho] at hw
          exact absurd (Except.ok.inj hw) (by simp)
        · exact hpre t ht w hw
    | some v =>
      have hstep : findBestMatchGo face b hi (student :: rest) =
          if hi < v then
            findBestMatchGo face
              (some ⟨student.studentId, student.studentName, v⟩) v rest
          else findBestMatchGo face b hi rest := by
        simp only [findBestMatchGo, ho, Bind.bind, Except.bind]
      by_cases hlt : hi < v
      · obtain ⟨r, hr, hcase⟩ :=
          ih (some ⟨student.studentId, student.studentName, v⟩) v hrest
        refine ⟨r, by rw [hstep]; rw [if_pos hlt]; exact hr, ?_⟩
        rcases hcase with ⟨hrb, hall⟩ |
          ⟨l1, s, l2, v2, hsplit, hsim, hv2, hrr, hpre, hpost⟩
        · exact Or.inr ⟨[], student, rest, v, rfl, ho, hlt, hrb,
            by simp, hall⟩
        · refine Or.inr ⟨student :: l1, s, l2, v2, by rw [hsplit]; rfl,
            hsim, lt_trans hlt hv2, hrr, ?_, hpost⟩
          intro t ht w hw
          rcases List.mem_cons.mp ht with rfl | ht
          · rw [ho] at hw
            have hwv : v = w := Option.some.inj (Except.ok.inj hw)
            rw [← hwv]
            exact hv2
          · exact hpre t ht w hw
      · obtain ⟨r, hr, hcase⟩ := ih b hi hrest
        refine ⟨r, by rw [hstep]; rw [if_neg hlt]; exact hr, ?_⟩
        rcases hcase with ⟨hrb, hall⟩ |
          ⟨l1, s, l2, v2, hsplit, hsim, hv2, hrr, hpre, hpost⟩
        · refine Or.inl ⟨hrb, ?_⟩
          intro t ht w hw
          rcases List.mem_cons.mp ht with rfl | ht
          · rw [ho] at hw
            have hwv : v = w := Option.some.inj (Except.ok.inj hw)
            rw [← hwv]
            exact not_lt.mp hlt
          · exact hall t ht w hw
        · refine Or.inr ⟨student :: l1, s, l2, v2, by rw [hsplit]; rfl,
            hsim, hv2, hrr, ?_, hpost⟩
          intro t ht w hw
          rcases List.mem_cons.mp ht with rfl | ht
          · rw [ho] at hw
            have hwv : v = w := Option.some.inj (Except.ok.inj hw)
            rw [← hwv]
            exact lt_of_le_of_lt (not_lt.mp hlt) hv2
          · exact hpre t ht w hw

/-- C10: for a gallery whose embeddings all have the query's length, the
cosine-similarity matcher `findBestMatch` returns no-match exactly when no
student's (non-NaN) similarity strictly exceeds the threshold; and whenever
it returns a match, the matched student is a gallery member whose similarity
equals the returned confidence, strictly exceeds the threshold, strictly
exceeds every earlier student's similarity (first-encountered wins exact
ties) and is at least every later student's similarity. -/
theorem findBestMatch_spec (face : List ℝ) (students : List StudentEmbedding)
    (threshold : ℝ)
    (hlen : ∀ s ∈ students, s.embedding.length = face.length) :
    (findBestMatch face students threshold = .ok none ↔
      ∀ s ∈ students, ∀ v,
        cosineSimilarity face s.embedding = .ok (some v) → v ≤ threshold) ∧
    (∀ m, findBestMatch face students threshold = .ok (some m) →
      threshold < m.confidence ∧
      ∃ l1 s l2, students = l1 ++ s :: l2 ∧
        s.studentId = m.studentId ∧ s.studentName = m.studentName ∧
        cosineSimilarity face s.embedding = .ok (some m.confidence) ∧
        (∀ t ∈ l1, ∀ w, cosineSimilarity face t.embedding = .ok (some w) →
          w < m.confidence) ∧
        (∀ t ∈ l2, ∀ w, cosineSimilarity face t.embedding = .ok (some w) →
          w ≤ m.confidence)) := by
  obtain ⟨r, hr, hcase⟩ := findBestMatchGo_spec face students none threshold hlen
  have hfind : findBestMatch face students threshold = .ok r := hr
  constructor
  · constructor
    · intro hnone
      rw [hfind] at hnone
      have hrn : r = none := Except.ok.inj hnone
      rcases hcase with ⟨_, hall⟩ |
        ⟨l1, s, l2, v, hsplit, hsim, hv, hrr, hpre, hpost⟩
      · exact hall
      · rw [hrn] at hrr
        exact absurd hrr.symm (by simp)
    · intro hall
      rcases hcase with ⟨hrb, _⟩ |
        ⟨l1, s, l2, v, hsplit, hsim, hv, hrr, hpre, hpost⟩
      · rw [hfind, hrb]
      · have hsmem : s ∈ students := by
          rw [hsplit]
          exact List.mem_append.mpr (Or.inr (List.mem_cons_self _ _))
        exact absurd hv (not_lt.mpr (hall s hsmem v hsim))
  · intro m hm
    rw [hfind] at hm
    have hrm : r = some m := Except.ok.inj hm
    rcases hcase with ⟨hrb, _⟩ |
      ⟨l1, s, l2, v, hsplit, hsim, hv, hrr, hpre, hpost⟩
    · rw [hrb] at hrm
      exact absurd hrm (by simp)
    · rw [hrm] at hrr
      have hmv : m = ⟨s.studentId, s.studentName, v⟩ := Option.some.inj hrr
      refine ⟨?_, l1, s, l2, hsplit, ?_, ?_, ?_, ?_, ?_⟩
      · rw [hmv]; exact hv
      · rw [hmv]
      · rw [hmv]
      · rw [hmv]; exact hsim
      · rw [hmv]; exact hpre
      · rw [hmv]; exact hpost

/-- Witness for the C10 theorem: a one-student gallery whose similarity to
the query is 1 > 0.5 produces that student as the match with confidence 1,
and the theorem locates it in the gallery. -/
theorem findBestMatch_spec_witness :
    (∀ s ∈ [(⟨"alice", "Alice", [1]⟩ : StudentEmbedding)],
      s.embedding.length = [(1 : ℝ)].length) ∧
    (findBestMatch [(1 : ℝ)] [⟨"alice", "Alice", [1]⟩] 0.5 =
      .ok (some ⟨"alice", "Alice", 1⟩)) ∧
    ((0.5 : ℝ) < 1 ∧
      ∃ l1 s l2, [(⟨"alice", "Alice", [1]⟩ : StudentEmbedding)] =
          l1 ++ s :: l2 ∧
        s.studentId = "alice" ∧ s.studentName = "Alice" ∧
        cosineSimilarity [(1 : ℝ)] s.embedding = .ok (some 1) ∧
        (∀ t ∈ l1, ∀ w, cosineSimilarity [(1 : ℝ)] t.embedding =
          .ok (some w) → w < 1) ∧
        (∀ t ∈ l2, ∀ w, cosineSimilarity [(1 : ℝ)] t.embedding =
          .ok (some w) → w ≤ 1)) := by
  have hlen : ∀ s ∈ [(⟨"alice", "Alice", [1]⟩ : StudentEmbedding)],
      s.embedding.length = [(1 : ℝ)].length := by simp
  have hfind : findBestMatch [(1 : ℝ)] [⟨"alice", "Alice", [1]⟩] 0.5 =
      .ok (some ⟨"alice", "Alice", 1⟩) := by
    norm_num [findBestMatch, findBestMatchGo, cosineSimilarity, normSq,
      dotProduct, Bind.bind, Except.bind, Real.sqrt_one]
  exact ⟨hlen, hfind,
    (findBestMatch_spec [(1 : ℝ)] [⟨"alice", "Alice", [1]⟩] 0.5 hlen).2 _ hfind⟩

/-- C1 counterexample: invoking the attendance-recording operation
`markAttendance` itself twice for the same student in one session performs
two persistence inserts — the second invocation is a repeated insert, not a
no-op, and the code has no AlreadyRecorded result at all (the
already-recorded check lives only at the `detect` call site). -/
theorem markAttendance_twice_two_inserts :
    (markAttendance (some "c1") false
        (markAttendance (some "c1") false ⟨[], []⟩ "s1" "present")
        "s1" "present").inserts =
      [⟨"s1", "c1", "present"⟩, ⟨"s1", "c1", "present"⟩] := by
  simp [markAttendance]

/-- C1 amended: `markAttendance` inserts unconditionally, so the
recording operation itself is not idempotent; the exactly-once behavior is
enforced at the `detect` call site, whose guard skips `markAttendance` when
the student is already in the session's marked set.  For a student not yet
marked (with a selected class and a successful insert), two guarded
invocations append exactly one attendance row, the second being a silent
no-op (nothing like AlreadyRecorded is reported). -/
theorem guardedMarkAttendance_idempotent (st : AttendanceState)
    (c studentId : String) (h : studentId ∉ st.marked) :
    (guardedMarkAttendance (some c) false
        (guardedMarkAttendance (some c) false st studentId)
        studentId).inserts =
      st.inserts ++ [⟨studentId, c, "present"⟩] ∧
    guardedMarkAttendance (some c) false
        (guardedMarkAttendance (some c) false st studentId) studentId =
      guardedMarkAttendance (some c) false st studentId := by
  have h1 : guardedMarkAttendance (some c) false st studentId =
      ⟨st.marked ++ [studentId],
        st.inserts ++ [⟨studentId, c, "present"⟩]⟩ := by
    unfold guardedMarkAttendance markAttendance
    rw [if_neg h]
    simp only [Bool.false_eq_true, if_false, ite_false]
    rw [if_neg (by simpa using h)]
  have h2 : guardedMarkAttendance (some c) false
      (⟨st.marked ++ [studentId],
        st.inserts ++ [⟨studentId, c, "present"⟩]⟩ : AttendanceState)
      studentId =
      ⟨st.marked ++ [studentId],
        st.inserts ++ [⟨studentId, c, "present"⟩]⟩ := by
    unfold guardedMarkAttendance
    rw [if_pos (by simp)]
  rw [h1, h2]
  exact ⟨rfl, rfl⟩

/-- Witness for the amended C1 theorem from the empty session state. -/
theorem guardedMarkAttendance_idempotent_witness :
    ("s1" ∉ (⟨[], []⟩ : AttendanceState).marked) ∧
    (guardedMarkAttendance (some "c1") false
        (guardedMarkAttendance (some "c1") false ⟨[], []⟩ "s1")
        "s1").inserts =
      (⟨[], []⟩ : AttendanceState).inserts ++ [⟨"s1", "c1", "present"⟩] := by
  have h : "s1" ∉ (⟨[], []⟩ : AttendanceState).marked := by simp
  exact ⟨h, (guardedMarkAttendance_idempotent ⟨[], []⟩ "c1" "s1" h).1⟩


theorem markAttendance_inserts (cid : Option String) (dbe : Bool)
    (st : AttendanceState) (sid status : String) :
    (markAttendance cid dbe st sid status).inserts =
      match cid with
      | none => st.inserts
      | some c => st.inserts ++ [⟨sid, c, status⟩] := by
  unfold markAttendance
  cases cid with
  | none => rfl
  | some c =>
    simp only []
    split
    · rfl
    · split
      · rfl
      · rfl

theorem guardedMarkAttendance_inserts (cid : Option String) (dbe : Bool)
    (st : AttendanceState) (sid : String) :
    (guardedMarkAttendance cid dbe st sid).inserts =
      if sid ∈ st.marked then st.inserts
      else
        match cid with
        | none => st.inserts
        | some c => st.inserts ++ [⟨sid, c, "present"⟩] := by
  unfold guardedMarkAttendance
  by_cases hm : sid ∈ st.marked
  · rw [if_pos hm, if_pos hm]
  · rw [if_neg hm, if_neg hm, markAttendance_inserts]

theorem processFace_inserts (gallery : List StudentEmbedding)
    (cid : Option String) (dbe : Bool) (st : AttendanceState)
    (emb : List ℝ) (rec : AttendanceRow)
    (h : rec ∈ (processFace gallery cid dbe st emb).inserts) :
    rec ∈ st.inserts ∨ ∃ m, findBestMatch emb gallery 0.5 = .ok (some m) ∧
      m.studentId = rec.student_id := by
  unfold processFace at h
  by_cases hg : gallery.isEmpty
  · rw [if_pos hg] at h
    exact Or.inl h
  · rw [if_neg hg] at h
    cases hf : findBestMatch emb gallery 0.5 with
    | error e => rw [hf] at h; exact Or.inl h
    | ok o =>
      rw [hf] at h
      cases o with
      | none => exact Or.inl h
      | some m =>
        have h2 : rec ∈ (guardedMarkAttendance cid dbe st m.studentId).inserts := h
        rw [guardedMarkAttendance_inserts] at h2
        by_cases hm : m.studentId ∈ st.marked
        · rw [if_pos hm] at h2
          exact Or.inl h2
        · rw [if_neg hm] at h2
          cases cid with
          | none => exact Or.inl h2
          | some c =>
            rcases List.mem_append.mp h2 with hin | hin
            · exact Or.inl hin
            · have heq : rec = ⟨m.studentId, c, "present"⟩ := by
                simpa using hin
              exact Or.inr ⟨m, rfl, by rw [heq]⟩

theorem detectCycle_inserts (gallery : List StudentEmbedding)
    (cid : Option String) (dbe : Bool) (faces : List (List ℝ)) :
    ∀ (st : AttendanceState) (rec : AttendanceRow),
    rec ∈ (detectCycle gallery cid dbe st faces).inserts →
    rec ∈ st.inserts ∨ ∃ emb ∈ faces, ∃ m,
      findBestMatch emb gallery 0.5 = .ok (some m) ∧
      m.studentId = rec.student_id := by
  induction faces with
  | nil => intro st rec h; exact Or.inl h
  | cons emb faces ih =>
    intro st rec h
    have hstep : detectCycle gallery cid dbe st (emb :: faces) =
        detectCycle gallery cid dbe (processFace gallery cid dbe st emb)
          faces := rfl
    rw [hstep] at h
    rcases ih (processFace gallery cid dbe st emb) rec h with hin | hex
    · rcases processFace_inserts gallery cid dbe st emb rec hin with hin2 | hex2
      · exact Or.inl hin2
      · obtain ⟨m, hm, hid⟩ := hex2
        exact Or.inr ⟨emb, List.mem_cons_self _ _, m, hm, hid⟩
    · obtain ⟨emb2, hemb2, m, hm, hid⟩ := hex
      exact Or.inr ⟨emb2, List.mem_cons_of_mem _ hemb2, m, hm, hid⟩

/-- C2 counterexample: with one enrolled student and a single frame whose
face embedding matches at similarity 1 (> 0.5), the live pipeline inserts an
attendance record after that one evaluation cycle — a single-frame match
does trigger a recording, so attendance is recorded well before any four
qualifying evaluation cycles have occurred. -/
theorem single_frame_match_records_attendance :
    (runCycles [⟨"alice", "Alice", [1]⟩] (some "c1") false ⟨[], []⟩
        [[[(1 : ℝ)]]]).inserts = [⟨"alice", "c1", "present"⟩] := by
  have hf : findBestMatch [(1 : ℝ)] [⟨"alice", "Alice", [1]⟩] 0.5 =
      .ok (some ⟨"alice", "Alice", 1⟩) := by
    norm_num [findBestMatch, findBestMatchGo, cosineSimilarity, normSq,
      dotProduct, Bind.bind, Except.bind, Real.sqrt_one]
  simp [runCycles, detectCycle, processFace, hf, guardedMarkAttendance,
    markAttendance]

/-- C2 amended: the live pipeline has no consecutive-match confirmation:
every attendance row it inserts is justified by the matcher returning that
student as a qualifying match (similarity strictly above the 0.5 threshold)
in at least ONE evaluation cycle, and such a single-cycle match already
triggers the recording.  This proves the "at least one qualifying cycle"
direction over whole-session runs. -/
theorem attendance_insert_requires_match (gallery : List StudentEmbedding)
    (cid : Option String) (dbe : Bool) (frames : List (List (List ℝ))) :
    ∀ (st : AttendanceState) (rec : AttendanceRow),
    rec ∈ (runCycles gallery cid dbe st frames).inserts →
    rec ∈ st.inserts ∨ ∃ frame ∈ frames, ∃ emb ∈ frame, ∃ m,
      findBestMatch emb gallery 0.5 = .ok (some m) ∧
      m.studentId = rec.student_id := by
  induction frames with
  | nil => intro st rec h; exact Or.inl h
  | cons frame frames ih =>
    intro st rec h
    have hstep : runCycles gallery cid dbe st (frame :: frames) =
        runCycles gallery cid dbe (detectCycle gallery cid dbe st frame)
          frames := rfl
    rw [hstep] at h
    rcases ih (detectCycle gallery cid dbe st frame) rec h with hin | hex
    · rcases detectCycle_inserts gallery cid dbe frame
        st rec hin with hin2 | hex2
      · exact Or.inl hin2
      · obtain ⟨emb, hemb, m, hm, hid⟩ := hex2
        exact Or.inr ⟨frame, List.mem_cons_self _ _, emb, hemb, m, hm, hid⟩
    · obtain ⟨frame2, hframe2, emb, hemb, m, hm, hid⟩ := hex
      exact Or.inr ⟨frame2, List.mem_cons_of_mem _ hframe2, emb, hemb,
        m, hm, hid⟩

/-- Witness for the amended C2 theorem on the concrete single-frame run. -/
theorem attendance_insert_requires_match_witness :
    ((⟨"alice", "c1", "present"⟩ : AttendanceRow) ∈
      (runCycles [⟨"alice", "Alice", [1]⟩] (some "c1") false ⟨[], []⟩
        [[[(1 : ℝ)]]]).inserts) ∧
    ((⟨"alice", "c1", "present"⟩ : AttendanceRow) ∈
        (⟨[], []⟩ : AttendanceState).inserts ∨
      ∃ frame ∈ [[[(1 : ℝ)]]], ∃ emb ∈ frame, ∃ m,
        findBestMatch emb [⟨"alice", "Alice", [1]⟩] 0.5 = .ok (some m) ∧
        m.studentId = (⟨"alice", "c1", "present"⟩ : AttendanceRow).student_id) := by
  have hf : findBestMatch [(1 : ℝ)] [⟨"alice", "Alice", [1]⟩] 0.5 =
      .ok (some ⟨"alice", "Alice", 1⟩) := by
    norm_num [findBestMatch, findBestMatchGo, cosineSimilarity, normSq,
      dotProduct, Bind.bind, Except.bind, Real.sqrt_one]
  have hmem : (⟨"alice", "c1", "present"⟩ : AttendanceRow) ∈
      (runCycles [⟨"alice", "Alice", [1]⟩] (some "c1") false ⟨[], []⟩
        [[[(1 : ℝ)]]]).inserts := by
    simp [runCycles, detectCycle, processFace, hf, guardedMarkAttendance,
      markAttendance]
  exact ⟨hmem, attendance_insert_requires_match [⟨"alice", "Alice", [1]⟩]
    (some "c1") false [[[(1 : ℝ)]]] ⟨[], []⟩ ⟨"alice", "c1", "present"⟩ hmem⟩
